import Mathlib

/-!
Verification of the path-properties engine of linux-kernel-module-cheat
(`path_properties.py`): a prefix tree of property overrides, the merge
algorithm resolving a path to a complete property set, and the two
eligibility predicates `should_be_built` and `should_be_tested`.

Python dicts are embedded as association lists with string keys; partial
operations that can raise (`KeyError`, `IndexError`, `TypeError`) return
`Option`, with `none` standing for the raised exception.
-/

/-- A Python value appearing as a property value in `path_properties.py`:
`None`, booleans, integers, strings, sets of strings, lists of flag
tokens, string-to-int dicts (`test_run_args`), and `signal.Signals`
members (an IntEnum; only identity against `None` is ever inspected). -/
inductive PropValue where
  | vNone
  | vBool (b : Bool)
  | vInt (n : Int)
  | vStr (s : String)
  | vSet (l : List String)
  | vList (l : List String)
  | vDict (d : List (String × Int))
  | vSignal (n : Nat)
deriving DecidableEq

/-- A Python dict with string keys, as an association list (keys unique in
every dict this program builds; lookups find the first occurrence). -/
abbrev Props : Type := List (String × PropValue)

/-- Dict lookup `d[k]` / `k in d`: first entry with the given key. -/
def afind {α : Type} : List (String × α) → String → Option α
  | [], _ => none
  | (k', v) :: rest, k => if k' = k then some v else afind rest k

/-- Dict assignment `d[k] = v`: replace the value at an existing key,
or append a fresh key at the end (Python insertion order). -/
def aset {α : Type} : List (String × α) → String → α → List (String × α)
  | [], k, v => [(k, v)]
  | (k', v') :: rest, k, v =>
      if k' = k then (k, v) :: rest else (k', v') :: aset rest k v

/-- Python `base.update(delta)` / `{**base, **delta}`: assign every entry
of `delta` into `base`, in order. -/
def aupdate {α : Type} : List (String × α) → List (String × α) → List (String × α)
  | base, [] => base
  | base, (k, v) :: rest => aupdate (aset base k v) rest

/-- The keys of the association list are pairwise distinct, as they are in
any Python dict. -/
def nodupKeys {α : Type} : List (String × α) → Bool
  | [] => true
  | (k, _) :: rest => !(afind rest k).isSome && nodupKeys rest

/-- Left-biased choice on `Option` (`Option.orElse` with strict argument). -/
def oelse {α : Type} : Option α → Option α → Option α
  | some v, _ => some v
  | none, b => b

/-- `shell_helpers.LF`, the linefeed token interleaved between flags. -/
def LF : String := "\n"

/-- `PathProperties.default_c_std`. -/
def default_c_std : String := "c11"

/-- `PathProperties.default_cxx_std`. -/
def default_cxx_std : String := "c++17"

/-- `PathProperties.default_properties`: the schema, one default per
recognized property name, in source declaration order. -/
def default_properties : Props := [
  ("allowed_archs", .vNone),
  ("arm_aarch32", .vBool false),
  ("baremetal", .vBool false),
  ("c_std", .vStr default_c_std),
  ("cc_flags", .vList [
    "-Wall", LF,
    "-Werror", LF,
    "-Wextra", LF,
    "-Wno-unused-function", LF,
    "-ggdb3", LF,
    "-fno-pie", LF,
    "-no-pie", LF]),
  ("cc_flags_after", .vList ["-lm", LF]),
  ("cc_pedantic", .vBool true),
  ("cxx_std", .vStr default_cxx_std),
  ("disrupts_system", .vBool false),
  ("exit_status", .vInt 0),
  ("extra_objs", .vList []),
  ("extra_objs_disable_baremetal_bootloader", .vBool false),
  ("extra_objs_lkmc_common", .vBool false),
  ("gem5_unimplemented_instruction", .vBool false),
  ("qemu_unimplemented_instruction", .vBool false),
  ("qemu_x86_64_int_syscall", .vBool false),
  ("interactive", .vBool false),
  ("more_than_1s", .vBool false),
  ("no_build", .vBool false),
  ("no_executable", .vBool false),
  ("requires_argument", .vBool false),
  ("requires_dynamic_library", .vBool false),
  ("requires_m5ops", .vBool false),
  ("requires_syscall_getcpu", .vBool false),
  ("requires_semihosting", .vBool false),
  ("requires_kernel_modules", .vBool false),
  ("requires_sudo", .vBool false),
  ("signal_generated_by_os", .vBool false),
  ("signal_received", .vNone),
  ("skip_run_unclassified", .vBool false),
  ("test_run_args", .vDict []),
  ("userland", .vBool false)
]

/-- `PathProperties.__init__`: validate every key of the record against
the schema; the first unknown key raises `ValueError`. -/
def ppInit (properties : Props) : Except String Props :=
  match properties.find? (fun kv => !(afind default_properties kv.1).isSome) with
  | some kv => Except.error ("Unknown key: " ++ kv.1)
  | none => Except.ok properties

/-- `PathProperties._update_list`: when both records hold the key, the
delta record's value becomes base value `+` delta value. The call sites
pass only the list-valued keys; non-list operands at such a key model the
`TypeError` Python `+` would raise on the mixed values this data can hold. -/
def update_list (selfp tmp : Props) (k : String) : Option Props :=
  match afind selfp k, afind tmp k with
  | some sv, some tv =>
      match sv, tv with
      | .vList a, .vList b => some (aset tmp k (.vList (a ++ b)))
      | _, _ => none
  | _, _ => some tmp

/-- `PathProperties._update_dict`: when both records hold the key, the
delta record's value becomes `{**base_value, **delta_value}`; non-dict
operands model the `TypeError` the `**` unpacking would raise. -/
def update_dict (selfp tmp : Props) (k : String) : Option Props :=
  match afind selfp k, afind tmp k with
  | some sv, some tv =>
      match sv, tv with
      | .vDict a, .vDict b => some (aset tmp k (.vDict (aupdate a b)))
      | _, _ => none
  | _, _ => some tmp

/-- `PathProperties.update`: copy the other record, splice the three
list-valued keys and the dict-valued key, then `dict.update` into self. -/
def ppUpdate (selfp other : Props) : Option Props :=
  match update_list selfp other "cc_flags" with
  | none => none
  | some tmp1 =>
    match update_list selfp tmp1 "cc_flags_after" with
    | none => none
    | some tmp2 =>
      match update_list selfp tmp2 "extra_objs" with
      | none => none
      | some tmp3 =>
        match update_dict selfp tmp3 "test_run_args" with
        | none => none
        | some tmp4 => some (aupdate selfp tmp4)

/-- `PrefixTree`: an override record plus child nodes keyed by path
segment. -/
inductive PrefixTree where
  | node (props : Props) (children : List (String × PrefixTree))

/-- The override record of a tree node (`self.path_properties.properties`). -/
def PrefixTree.props : PrefixTree → Props
  | .node p _ => p

/-- The child map of a tree node (`self.children`). -/
def PrefixTree.children : PrefixTree → List (String × PrefixTree)
  | .node _ c => c

/-- Signal constant `signal.Signals.SIGHUP`. -/
def SIGHUP : PropValue := .vSignal 1

/-- Signal constant `signal.Signals.SIGILL`. -/
def SIGILL : PropValue := .vSignal 4

/-- Signal constant `signal.Signals.SIGABRT`. -/
def SIGABRT : PropValue := .vSignal 6

/-- Signal constant `signal.Signals.SIGFPE`. -/
def SIGFPE : PropValue := .vSignal 8

/-- Signal constant `signal.Signals.SIGSEGV`. -/
def SIGSEGV : PropValue := .vSignal 11

/-- `gnu_extension_properties`. -/
def gnu_extension_properties : Props := [
  ("c_std", .vStr "gnu11"),
  ("cc_pedantic", .vBool false),
  ("cxx_std", .vStr "gnu++17")
]

/-- `freestanding_properties`. -/
def freestanding_properties : Props := [
  ("baremetal", .vBool false),
  ("cc_flags", .vList ["-ffreestanding", LF, "-nostdlib", LF, "-static", LF]),
  ("extra_objs_lkmc_common", .vBool false)
]

/-- `path_properties_tree = PrefixTree.make_from_tuples(path_properties_tuples)`:
the declarative tuple literal converted to its tree, node by node. The
`userland/linux` dict literal of the source lists `proc_events.c` twice with
identical records; Python dict literals keep the last duplicate, so the
evaluated dict holds that entry once. -/
def path_properties_tree : PrefixTree :=
  .node default_properties [
    ("baremetal", .node [("baremetal", .vBool true)] [
      ("arch", .node [] [
        ("arm", .node [("allowed_archs", .vSet ["arm"])] [
          ("multicore.S", .node [("test_run_args", .vDict [("cpus", 2)])] []),
          ("no_bootloader", .node
            [("extra_objs_disable_baremetal_bootloader", .vBool true)] [
            ("gem5_exit.S", .node [("requires_m5ops", .vBool true)] []),
            ("semihost_exit.S", .node [("requires_semihosting", .vBool true)] [])
          ]),
          ("return1.S", .node [("exit_status", .vInt 1)] []),
          ("semihost_exit.S", .node [("requires_semihosting", .vBool true)] [])
        ]),
        ("aarch64", .node [("allowed_archs", .vSet ["aarch64"])] [
          ("multicore.S", .node [("test_run_args", .vDict [("cpus", 2)])] []),
          ("no_bootloader", .node
            [("extra_objs_disable_baremetal_bootloader", .vBool true)] [
            ("gem5_exit.S", .node [("requires_m5ops", .vBool true)] []),
            ("semihost_exit.S", .node [("requires_semihosting", .vBool true)] []),
            ("wfe_loop.S", .node [("more_than_1s", .vBool true)] [])
          ]),
          ("return1.S", .node [("exit_status", .vInt 1)] []),
          ("semihost_exit.S", .node [("requires_semihosting", .vBool true)] []),
          ("svc.c", .node [("cc_pedantic", .vBool false)] []),
          ("timer.c", .node [("skip_run_unclassified", .vBool true)] [])
        ])
      ]),
      ("lib", .node [("no_executable", .vBool true)] []),
      ("getchar.c", .node [("interactive", .vBool true)] [])
    ]),
    ("kernel_modules", .node [] [
      ("float.c", .node [("allowed_archs", .vStr "x86_64")] [])
    ]),
    ("lkmc.c", .node [("baremetal", .vBool true), ("userland", .vBool true)] []),
    ("userland", .node [("userland", .vBool true)] [
      ("arch", .node
        [("baremetal", .vBool true), ("extra_objs_lkmc_common", .vBool true)] [
        ("arm", .node [
          ("allowed_archs", .vSet ["arm"]),
          ("cc_flags", .vList [
            "-Xassembler", "-mfpu=crypto-neon-fp-armv8.1", LF,
            "-Xassembler", "-meabi=5", LF,
            "-marm", LF,
            "-masm-syntax-unified", LF])] [
          ("inline_asm", .node [] [
            ("freestanding", .node freestanding_properties [])
          ]),
          ("freestanding", .node freestanding_properties []),
          ("lkmc_assert_eq_fail.S", .node [("signal_received", SIGABRT)] []),
          ("lkmc_assert_memcmp_fail.S", .node [("signal_received", SIGABRT)] []),
          ("udf.S", .node
            [("signal_generated_by_os", .vBool true),
             ("signal_received", SIGILL)] []),
          ("vcvta.S", .node
            [("arm_aarch32", .vBool true),
             ("gem5_unimplemented_instruction", .vBool true)] [])
        ]),
        ("aarch64", .node [("allowed_archs", .vSet ["aarch64"])] [
          ("inline_asm", .node [] [
            ("freestanding", .node freestanding_properties [])
          ]),
          ("freestanding", .node freestanding_properties []),
          ("lkmc_assert_eq_fail.S", .node [("signal_received", SIGABRT)] []),
          ("lkmc_assert_memcmp_fail.S", .node [("signal_received", SIGABRT)] []),
          ("udf.S", .node
            [("signal_generated_by_os", .vBool true),
             ("signal_received", SIGILL)] []),
          ("sve.S", .node [("gem5_unimplemented_instruction", .vBool true)] [])
        ]),
        ("x86_64", .node [("allowed_archs", .vSet ["x86_64"])] [
          ("freestanding", .node freestanding_properties [
            ("linux", .node [] [
              ("int_system_call.S", .node
                [("qemu_x86_64_int_syscall", .vBool true)] [])
            ])
          ]),
          ("inline_asm", .node [] [
            ("freestanding", .node freestanding_properties [])
          ]),
          ("intrinsics", .node [] [
            ("rdtscp.c", .node
              [("gem5_unimplemented_instruction", .vBool true),
               ("qemu_unimplemented_instruction", .vBool true)] [])
          ]),
          ("div_overflow.S", .node [("signal_received", SIGFPE)] []),
          ("div_zero.S", .node [("signal_received", SIGFPE)] []),
          ("lkmc_assert_eq_fail.S", .node [("signal_received", SIGABRT)] []),
          ("lkmc_assert_memcmp_fail.S", .node [("signal_received", SIGABRT)] []),
          ("popcnt.S", .node [("qemu_unimplemented_instruction", .vBool true)] []),
          ("rdrand.S", .node
            [("gem5_unimplemented_instruction", .vBool true),
             ("qemu_unimplemented_instruction", .vBool true)] []),
          ("rdtscp.S", .node [("qemu_unimplemented_instruction", .vBool true)] []),
          ("ring0.c", .node [("signal_received", SIGSEGV)] []),
          ("vfmadd132pd.S", .node
            [("gem5_unimplemented_instruction", .vBool true),
             ("qemu_unimplemented_instruction", .vBool true)] [])
        ]),
        ("lkmc_assert_fail.S", .node [("signal_received", SIGABRT)] [])
      ]),
      ("c", .node [("baremetal", .vBool true)] [
        ("abort.c", .node [("signal_received", SIGABRT)] []),
        ("assert_fail.c", .node [("signal_received", SIGABRT)] []),
        ("exit1.c", .node [("exit_status", .vInt 1)] []),
        ("exit2.c", .node [("exit_status", .vInt 2)] []),
        ("false.c", .node [("exit_status", .vInt 1)] []),
        ("file_write_read.c", .node [("baremetal", .vBool false)] []),
        ("getchar.c", .node [("interactive", .vBool true)] []),
        ("infinite_loop.c", .node [("more_than_1s", .vBool true)] []),
        ("out_of_memory.c", .node [("disrupts_system", .vBool true)] []),
        ("return1.c", .node [("exit_status", .vInt 1)] []),
        ("return2.c", .node [("exit_status", .vInt 2)] [])
      ]),
      ("cpp", .node [] [
        ("atomic.cpp", .node
          [("test_run_args", .vDict [("cpus", 3)]),
           ("gem5_unimplemented_instruction", .vBool true)] []),
        ("count.cpp", .node [("more_than_1s", .vBool true)] []),
        ("sleep_for.cpp", .node [("more_than_1s", .vBool true)] [])
      ]),
      ("gcc", .node gnu_extension_properties [
        ("openmp.c", .node [("cc_flags", .vList ["-fopenmp", LF])] [])
      ]),
      ("gdb_tests", .node [("baremetal", .vBool true)] []),
      ("kernel_modules", .node
        (aupdate gnu_extension_properties
          [("requires_kernel_modules", .vBool true)]) []),
      ("libs", .node [("requires_dynamic_library", .vBool true)] [
        ("libdrm", .node [("requires_sudo", .vBool true)] [])
      ]),
      ("linux", .node gnu_extension_properties [
        ("ctrl_alt_del.c", .node [("requires_sudo", .vBool true)] []),
        ("init_env_poweroff.c", .node [("requires_sudo", .vBool true)] []),
        ("myinsmod.c", .node [("requires_sudo", .vBool true)] []),
        ("myrmmod.c", .node [("requires_sudo", .vBool true)] []),
        ("pagemap_dump.c", .node [("requires_argument", .vBool true)] []),
        ("poweroff.c", .node [("requires_sudo", .vBool true)] []),
        ("proc_events.c", .node [("requires_sudo", .vBool true)] []),
        ("sched_getaffinity.c", .node
          [("requires_syscall_getcpu", .vBool true)] []),
        ("sched_getaffinity_threads.c", .node
          [("more_than_1s", .vBool true),
           ("requires_syscall_getcpu", .vBool true)] []),
        ("time_boot.c", .node [("requires_sudo", .vBool true)] []),
        ("virt_to_phys_user.c", .node [("requires_argument", .vBool true)] [])
      ]),
      ("posix", .node [] [
        ("count.c", .node [("more_than_1s", .vBool true)] []),
        ("count_to.c", .node [("more_than_1s", .vBool true)] []),
        ("kill.c", .node
          [("baremetal", .vBool true), ("signal_received", SIGHUP)] []),
        ("pthread_count.c", .node
          [("more_than_1s", .vBool true),
           ("test_run_args", .vDict [("cpus", 2)])] []),
        ("pthread_self.c", .node [("test_run_args", .vDict [("cpus", 2)])] []),
        ("sleep_forever.c", .node [("more_than_1s", .vBool true)] []),
        ("virt_to_phys_test.c", .node [("more_than_1s", .vBool true)] [])
      ])
    ])
  ]

/-- The loop of `get`: walk the tree along the path components, merging
each matched child's overrides into the running record, and stop at the
first component with no matching child. -/
def resolveWalk (t : PrefixTree) (comps : List String) (acc : Props) : Option Props :=
  match comps with
  | [] => some acc
  | c :: rest =>
    match afind (PrefixTree.children t) c with
    | some child =>
      match ppUpdate acc (PrefixTree.props child) with
      | some acc2 => resolveWalk child rest acc2
      | none => none
    | none => some acc

/-- `get(path)`: split on `os.sep`, resolve from the root record, and
return the resolved record together with the stored path components. -/
def getProperties (path : String) : Option (Props × List String) :=
  match resolveWalk path_properties_tree (path.splitOn "/") default_properties with
  | some props => some (props, path.splitOn "/")
  | none => none

/-- The extension part of `os.path.splitext` on a single path component:
the suffix from the last dot, provided some earlier character of the
component is not a dot (leading dots alone never start an extension). -/
def splitextExt (s : String) : String :=
  match (s.data.reverse).findIdx? (fun c => c == '.') with
  | none => ""
  | some r =>
    let d := s.data.length - 1 - r
    if (s.data.take d).any (fun c => c != '.') then String.mk (s.data.drop d) else ""

/-- Python substring containment `sub in s` on strings: `sub` occurs
contiguously in `s` (the empty string occurs in every string). -/
def pySubstr (sub : List Char) : List Char → Bool
  | [] => sub.isEmpty
  | c :: rest => List.isPrefixOf sub (c :: rest) || pySubstr sub rest

/-- Python truthiness of a property value (`not v` negates this). -/
def truthy : PropValue → Bool
  | .vNone => false
  | .vBool b => b
  | .vInt n => !(n = 0)
  | .vStr s => !(s = "")
  | .vSet l => !(l = [])
  | .vList l => !(l = [])
  | .vDict d => !(d = [])
  | .vSignal _ => true

/-- Python `x in v` for the value shapes this program stores: membership
for sets, lists and dict keys, substring containment for strings; `in`
on the remaining shapes raises `TypeError`. -/
def pyIn (x : String) : PropValue → Option Bool
  | .vSet l => some (l.contains x)
  | .vStr s => some (pySubstr x.data s.data)
  | .vList l => some (l.contains x)
  | .vDict d => some (afind d x).isSome
  | _ => none

/-- `not self[k]`: look the key up (`KeyError` when absent) and negate
its truthiness. -/
def notProp (p : Props) (k : String) : Option Bool :=
  (afind p k).map (fun v => !truthy v)

/-- Python short-circuit `and` over fallible boolean operands. -/
def pyAnd (a : Option Bool) (b : Unit → Option Bool) : Option Bool :=
  match a with
  | none => none
  | some x => if x then b () else some false

/-- Python short-circuit `or` over fallible boolean operands. -/
def pyOr (a : Option Bool) (b : Unit → Option Bool) : Option Bool :=
  match a with
  | none => none
  | some x => if x then some true else b ()

/-- Python `not` over a fallible boolean operand. -/
def pyNot (a : Option Bool) : Option Bool :=
  a.map (fun x => !x)

/-- The environment dict consumed by the predicates. -/
structure Env where
  arch : String
  mode : String
  emulator : String
  build_in_exts : List String
  baremetal_build_in_exts : List String
  package : List String
  package_all : Bool

/-- `PathProperties.should_be_built`, with the stored path components
passed explicitly; `none` models a raised exception. -/
def should_be_built (p : Props) (pc : List String) (env : Env) (link : Bool) :
    Option Bool :=
  match pc.getLast? with
  | none => none
  | some last =>
  let ext := splitextExt last
  pyAnd (pyNot (
    pyAnd (some (decide (pc.length > 1))) (fun _ =>
    pyAnd ((pc[1]?).map (fun s => decide (s = "libs"))) (fun _ =>
    pyAnd (some (!env.package_all)) (fun _ =>
    pyNot ((pc[2]?).map (fun s => env.package.contains s))))))) (fun _ =>
  pyAnd (notProp p "no_build") (fun _ =>
  pyAnd (pyOr ((afind p "allowed_archs").map (fun v => decide (v = PropValue.vNone)))
            (fun _ => (afind p "allowed_archs").bind (fun v => pyIn env.arch v)))
       (fun _ =>
  pyAnd (pyNot (
    pyOr (pyAnd (some (decide (env.mode = "userland"))) (fun _ =>
          pyOr (notProp p "userland") (fun _ =>
            some (!(env.build_in_exts.contains ext))))) (fun _ =>
    pyAnd (some (decide (env.mode = "baremetal"))) (fun _ =>
      pyOr (notProp p "baremetal") (fun _ =>
        some (!(env.baremetal_build_in_exts.contains ext))))))) (fun _ =>
  pyNot (pyAnd (some link) (fun _ =>
    (afind p "no_executable").map truthy))))))

/-- `PathProperties.should_be_tested`; `none` models a raised exception. -/
def should_be_tested (p : Props) (pc : List String) (env : Env) : Option Bool :=
  pyAnd (should_be_built p pc env false) (fun _ =>
  pyAnd (pyNot (pyAnd (some (decide (env.mode = "baremetal"))) (fun _ =>
        pyOr ((afind p "arm_aarch32").map truthy) (fun _ =>
          (afind p "signal_generated_by_os").map truthy)))) (fun _ =>
  pyAnd (notProp p "disrupts_system") (fun _ =>
  pyAnd (notProp p "interactive") (fun _ =>
  pyAnd (notProp p "more_than_1s") (fun _ =>
  pyAnd (notProp p "no_executable") (fun _ =>
  pyAnd (notProp p "requires_argument") (fun _ =>
  pyAnd (notProp p "requires_kernel_modules") (fun _ =>
  pyAnd (notProp p "requires_sudo") (fun _ =>
  pyAnd (notProp p "skip_run_unclassified") (fun _ =>
  pyAnd (notProp p "qemu_x86_64_int_syscall") (fun _ =>
  pyAnd (pyNot (pyAnd (some (decide (env.emulator = "gem5"))) (fun _ =>
        pyOr ((afind p "gem5_unimplemented_instruction").map truthy) (fun _ =>
        pyOr ((afind p "signal_received").map
              (fun v => !(decide (v = PropValue.vNone)))) (fun _ =>
        pyOr ((afind p "requires_dynamic_library").map truthy) (fun _ =>
        pyOr ((afind p "requires_semihosting").map truthy) (fun _ =>
        (afind p "requires_syscall_getcpu").map truthy))))))) (fun _ =>
  pyNot (pyAnd (some (decide (env.emulator = "qemu"))) (fun _ =>
    pyOr ((afind p "requires_m5ops").map truthy) (fun _ =>
    pyAnd (some (decide (env.mode = "baremetal"))) (fun _ =>
      (afind p "qemu_unimplemented_instruction").map truthy))))))))))))))))

/-! ### Association list lemmas -/

theorem afind_aset_self {α : Type} (p : List (String × α)) (k : String) (v : α) :
    afind (aset p k v) k = some v := by
  induction p with
  | nil => simp [aset, afind]
  | cons hd tl ih =>
    obtain ⟨k', v'⟩ := hd
    by_cases h : k' = k
    · simp [aset, h, afind]
    · simp [aset, h, afind, ih]

theorem afind_aset_ne {α : Type} (p : List (String × α)) (k k' : String) (v : α)
    (h : k' ≠ k) : afind (aset p k v) k' = afind p k' := by
  induction p with
  | nil => simp [aset, afind, Ne.symm h]
  | cons hd tl ih =>
    obtain ⟨a, b⟩ := hd
    by_cases hak : a = k
    · subst hak
      simp [aset, afind, Ne.symm h]
    · by_cases hak' : a = k'
      · subst hak'
        simp [aset, hak, afind, h]
      · simp [aset, hak, afind, hak', ih]

theorem nodupKeys_cons_iff {α : Type} (k : String) (v : α) (rest : List (String × α)) :
    nodupKeys ((k, v) :: rest) = true ↔ afind rest k = none ∧ nodupKeys rest = true := by
  cases h : afind rest k <;> simp [nodupKeys, h]

theorem nodupKeys_aset {α : Type} (p : List (String × α)) (k : String) (v : α)
    (h : nodupKeys p = true) : nodupKeys (aset p k v) = true := by
  induction p with
  | nil => simp [aset, nodupKeys, afind]
  | cons hd tl ih =>
    obtain ⟨a, b⟩ := hd
    rw [nodupKeys_cons_iff] at h
    by_cases hak : a = k
    · subst hak
      simp [aset, nodupKeys_cons_iff, h.1, h.2]
    · rw [aset, if_neg hak, nodupKeys_cons_iff]
      exact ⟨by rw [afind_aset_ne tl k a v hak]; exact h.1, ih h.2⟩

theorem afind_aupdate_of_none {α : Type} (base delta : List (String × α)) (k : String)
    (h : afind delta k = none) : afind (aupdate base delta) k = afind base k := by
  induction delta generalizing base with
  | nil => simp [aupdate]
  | cons hd tl ih =>
    obtain ⟨a, b⟩ := hd
    rw [afind] at h
    by_cases hak : a = k
    · simp [hak] at h
    · rw [if_neg hak] at h
      rw [aupdate, ih _ h, afind_aset_ne _ _ _ _ (fun hh => hak hh.symm)]

theorem afind_aupdate_of_some {α : Type} (base delta : List (String × α)) (k : String)
    (v : α) (hd : nodupKeys delta = true) (h : afind delta k = some v) :
    afind (aupdate base delta) k = some v := by
  induction delta generalizing base with
  | nil => simp [afind] at h
  | cons hd0 tl ih =>
    obtain ⟨a, b⟩ := hd0
    rw [nodupKeys_cons_iff] at hd
    rw [afind] at h
    by_cases hak : a = k
    · subst hak
      rw [if_pos rfl] at h
      cases h
      rw [aupdate, afind_aupdate_of_none _ _ _ hd.1, afind_aset_self]
    · rw [if_neg hak] at h
      rw [aupdate]
      exact ih _ hd.2 h

theorem afind_aupdate {α : Type} (base delta : List (String × α)) (k : String)
    (hd : nodupKeys delta = true) :
    afind (aupdate base delta) k = oelse (afind delta k) (afind base k) := by
  cases h : afind delta k with
  | none => rw [afind_aupdate_of_none _ _ _ h, oelse]
  | some v => rw [afind_aupdate_of_some _ _ _ _ hd h, oelse]

theorem nodupKeys_aupdate {α : Type} (base delta : List (String × α))
    (h : nodupKeys base = true) : nodupKeys (aupdate base delta) = true := by
  induction delta generalizing base with
  | nil => exact h
  | cons hd tl ih =>
    obtain ⟨a, b⟩ := hd
    exact ih _ (nodupKeys_aset _ _ _ h)

theorem oelse_assoc {α : Type} (a b c : Option α) :
    oelse (oelse a b) c = oelse a (oelse b c) := by
  cases a <;> simp [oelse]

theorem oelse_none {α : Type} (b : Option α) : oelse none b = b := rfl

theorem oelse_isSome {α : Type} (a b : Option α) (h : b.isSome = true) :
    (oelse a b).isSome = true := by
  cases a <;> simp [oelse, h]

/-! ### Typed views and well-formedness of the declared data -/

/-- The list stored at a list-valued key, empty when the key is absent. -/
def listOf (p : Props) (k : String) : List String :=
  match afind p k with
  | some (.vList l) => l
  | _ => []

/-- The dict stored at `test_run_args`, empty when the key is absent. -/
def dictOf (p : Props) : List (String × Int) :=
  match afind p "test_run_args" with
  | some (.vDict d) => d
  | _ => []

/-- The value an override record declares for one `test_run_args` entry. -/
def declDictEntry (p : Props) (key : String) : Option Int :=
  match afind p "test_run_args" with
  | some (.vDict d) => afind d key
  | _ => none

/-- A list-valued key is either absent or holds a list. -/
def listTyped : Option PropValue → Bool
  | none => true
  | some (.vList _) => true
  | some _ => false

/-- The `test_run_args` key is either absent or holds a dict with unique keys. -/
def dictTyped : Option PropValue → Bool
  | none => true
  | some (.vDict d) => nodupKeys d
  | some _ => false

/-- The `allowed_archs` key is absent, `None`, a set, or a string — the
only shapes the declarations use. -/
def archTyped : Option PropValue → Bool
  | none => true
  | some .vNone => true
  | some (.vSet _) => true
  | some (.vStr _) => true
  | some _ => false

/-- Well-formedness of one override record: unique keys, list values at
the list-merged keys, a dict at `test_run_args`, a legal `allowed_archs`. -/
def wfProps (p : Props) : Bool :=
  nodupKeys p &&
  listTyped (afind p "cc_flags") &&
  listTyped (afind p "cc_flags_after") &&
  listTyped (afind p "extra_objs") &&
  dictTyped (afind p "test_run_args") &&
  archTyped (afind p "allowed_archs")

mutual

/-- Every record in the tree is well-formed. -/
def wfTree : PrefixTree → Bool
  | .node props children => wfProps props && wfChildren children

/-- Every record in a child list is well-formed. -/
def wfChildren : List (String × PrefixTree) → Bool
  | [] => true
  | (_, t) :: rest => wfTree t && wfChildren rest

end

/-- Invariant of the accumulated record during resolution: the three
list-merged keys are present and hold lists, `test_run_args` is present
and holds a dict with unique keys, and `allowed_archs` is present with a
legal shape. -/
def accOk (p : Props) : Bool :=
  (match afind p "cc_flags" with | some (.vList _) => true | _ => false) &&
  (match afind p "cc_flags_after" with | some (.vList _) => true | _ => false) &&
  (match afind p "extra_objs" with | some (.vList _) => true | _ => false) &&
  (match afind p "test_run_args" with
   | some (.vDict d) => nodupKeys d
   | _ => false) &&
  (match afind p "allowed_archs" with
   | some .vNone => true
   | some (.vSet _) => true
   | some (.vStr _) => true
   | _ => false)

/-! ### Specification-side definitions

These follow the spec's wording, for comparison with the source-side
resolution above. -/

/-- Modelled from the spec: "the concatenation, root-to-leaf in
declaration order, of that property's value at every matched ancestor
(ancestors that don't declare it contribute nothing)". -/
def specListDecls (t : PrefixTree) (comps : List String) (k : String) : List String :=
  match comps with
  | [] => []
  | c :: rest =>
    match afind (PrefixTree.children t) c with
    | some child => listOf (PrefixTree.props child) k ++ specListDecls child rest k
    | none => []

/-- Modelled from the spec: "the value declared at the deepest matched
node that declares it", as an optional value (absent when no matched node
declares the property). -/
def specDeepestScalar (t : PrefixTree) (comps : List String) (k : String) :
    Option PropValue :=
  match comps with
  | [] => none
  | c :: rest =>
    match afind (PrefixTree.children t) c with
    | some child =>
        oelse (specDeepestScalar child rest k) (afind (PrefixTree.props child) k)
    | none => none

/-- Modelled from the spec: for one `test_run_args` entry name, the value
declared at the deepest matched node declaring that entry. -/
def specDeepestDictEntry (t : PrefixTree) (comps : List String) (key : String) :
    Option Int :=
  match comps with
  | [] => none
  | c :: rest =>
    match afind (PrefixTree.children t) c with
    | some child =>
        oelse (specDeepestDictEntry child rest key)
              (declDictEntry (PrefixTree.props child) key)
    | none => none

/-- The matched part of a path: the longest leading run of components
each naming a child of the previous node. -/
def matchedPart (t : PrefixTree) (comps : List String) : List String :=
  match comps with
  | [] => []
  | c :: rest =>
    match afind (PrefixTree.children t) c with
    | some child => c :: matchedPart child rest
    | none => []

/-! ### Extraction lemmas for the typed invariants -/

theorem exists_of_listMatch {o : Option PropValue}
    (h : (match o with | some (.vList _) => true | _ => false) = true) :
    ∃ l, o = some (.vList l) := by
  cases o with
  | none => simp at h
  | some v => cases v <;> first | exact ⟨_, rfl⟩ | simp at h

theorem exists_of_dictMatch {o : Option PropValue}
    (h : (match o with | some (.vDict d) => nodupKeys d | _ => false) = true) :
    ∃ d, o = some (.vDict d) ∧ nodupKeys d = true := by
  cases o with
  | none => simp at h
  | some v => cases v <;> first | exact ⟨_, rfl, h⟩ | simp at h

theorem accOk_cc_flags {p : Props} (h : accOk p = true) :
    ∃ l, afind p "cc_flags" = some (.vList l) := by
  simp only [accOk, Bool.and_eq_true] at h
  exact exists_of_listMatch h.1.1.1.1

theorem accOk_cc_flags_after {p : Props} (h : accOk p = true) :
    ∃ l, afind p "cc_flags_after" = some (.vList l) := by
  simp only [accOk, Bool.and_eq_true] at h
  exact exists_of_listMatch h.1.1.1.2

theorem accOk_extra_objs {p : Props} (h : accOk p = true) :
    ∃ l, afind p "extra_objs" = some (.vList l) := by
  simp only [accOk, Bool.and_eq_true] at h
  exact exists_of_listMatch h.1.1.2

theorem accOk_test_run_args {p : Props} (h : accOk p = true) :
    ∃ d, afind p "test_run_args" = some (.vDict d) ∧ nodupKeys d = true := by
  simp only [accOk, Bool.and_eq_true] at h
  exact exists_of_dictMatch h.1.2

theorem accOk_allowed_archs {p : Props} (h : accOk p = true) :
    ∃ v, afind p "allowed_archs" = some v ∧
      (v = .vNone ∨ (∃ l, v = .vSet l) ∨ (∃ s, v = .vStr s)) := by
  simp only [accOk, Bool.and_eq_true] at h
  have h2 := h.2
  cases ho : afind p "allowed_archs" with
  | none => rw [ho] at h2; simp at h2
  | some v =>
    rw [ho] at h2
    refine ⟨v, rfl, ?_⟩
    cases v with
    | vNone => exact Or.inl rfl
    | vSet l => exact Or.inr (Or.inl ⟨l, rfl⟩)
    | vStr s => exact Or.inr (Or.inr ⟨s, rfl⟩)
    | vBool b => simp at h2
    | vInt n => simp at h2
    | vList l => simp at h2
    | vDict d => simp at h2
    | vSignal n => simp at h2

theorem wfProps_parts {p : Props} (h : wfProps p = true) :
    nodupKeys p = true ∧
    listTyped (afind p "cc_flags") = true ∧
    listTyped (afind p "cc_flags_after") = true ∧
    listTyped (afind p "extra_objs") = true ∧
    dictTyped (afind p "test_run_args") = true ∧
    archTyped (afind p "allowed_archs") = true := by
  simp only [wfProps, Bool.and_eq_true] at h
  exact ⟨h.1.1.1.1.1, h.1.1.1.1.2, h.1.1.1.2, h.1.1.2, h.1.2, h.2⟩

theorem wfChildren_afind (l : List (String × PrefixTree)) (c : String) (t : PrefixTree)
    (hw : wfChildren l = true) (h : afind l c = some t) : wfTree t = true := by
  induction l with
  | nil => simp [afind] at h
  | cons hd tl ih =>
    obtain ⟨a, u⟩ := hd
    rw [wfChildren, Bool.and_eq_true] at hw
    rw [afind] at h
    by_cases hac : a = c
    · rw [if_pos hac] at h
      cases h
      exact hw.1
    · rw [if_neg hac] at h
      exact ih hw.2 h

/-! ### Behavior of one merge step -/

theorem update_list_spec (acc tmp : Props) (k : String)
    (ha : ∃ a, afind acc k = some (.vList a))
    (ht : listTyped (afind tmp k) = true)
    (hn : nodupKeys tmp = true) :
    ∃ tmp2, update_list acc tmp k = some tmp2 ∧ nodupKeys tmp2 = true ∧
      afind tmp2 k = (if (afind tmp k).isSome
                      then some (.vList (listOf acc k ++ listOf tmp k))
                      else none) ∧
      (∀ k2, k2 ≠ k → afind tmp2 k2 = afind tmp k2) := by
  obtain ⟨a, ha⟩ := ha
  cases htk : afind tmp k with
  | none =>
    refine ⟨tmp, ?_, hn, ?_, fun _ _ => rfl⟩
    · simp [update_list, ha, htk]
    · simp [htk]
  | some tv =>
    rw [htk] at ht
    cases tv with
    | vList b =>
      refine ⟨aset tmp k (.vList (a ++ b)), ?_, nodupKeys_aset _ _ _ hn, ?_, ?_⟩
      · simp [update_list, ha, htk]
      · rw [afind_aset_self]
        simp [listOf, ha, htk]
      · intro k2 hk2
        exact afind_aset_ne _ _ _ _ hk2
    | vNone => simp [listTyped] at ht
    | vBool b => simp [listTyped] at ht
    | vInt n => simp [listTyped] at ht
    | vStr s => simp [listTyped] at ht
    | vSet l => simp [listTyped] at ht
    | vDict d => simp [listTyped] at ht
    | vSignal n => simp [listTyped] at ht

theorem update_dict_spec (acc tmp : Props)
    (ha : ∃ d, afind acc "test_run_args" = some (.vDict d) ∧ nodupKeys d = true)
    (ht : dictTyped (afind tmp "test_run_args") = true)
    (hn : nodupKeys tmp = true) :
    ∃ tmp2, update_dict acc tmp "test_run_args" = some tmp2 ∧ nodupKeys tmp2 = true ∧
      afind tmp2 "test_run_args" =
        (if (afind tmp "test_run_args").isSome
         then some (.vDict (aupdate (dictOf acc) (dictOf tmp)))
         else none) ∧
      (∀ k2, k2 ≠ "test_run_args" → afind tmp2 k2 = afind tmp k2) := by
  obtain ⟨d, ha, hand⟩ := ha
  cases htk : afind tmp "test_run_args" with
  | none =>
    refine ⟨tmp, ?_, hn, ?_, fun _ _ => rfl⟩
    · simp [update_dict, ha, htk]
    · simp [htk]
  | some tv =>
    rw [htk] at ht
    cases tv with
    | vDict b =>
      refine ⟨aset tmp "test_run_args" (.vDict (aupdate d b)), ?_,
        nodupKeys_aset _ _ _ hn, ?_, ?_⟩
      · simp [update_dict, ha, htk]
      · rw [afind_aset_self]
        simp [dictOf, ha, htk]
      · intro k2 hk2
        exact afind_aset_ne _ _ _ _ hk2
    | vNone => simp [dictTyped] at ht
    | vBool b => simp [dictTyped] at ht
    | vInt n => simp [dictTyped] at ht
    | vStr s => simp [dictTyped] at ht
    | vSet l => simp [dictTyped] at ht
    | vList l => simp [dictTyped] at ht
    | vSignal n => simp [dictTyped] at ht

/-! ### Views of typed values -/

theorem listOf_eq (p : Props) (k : String) (l : List String)
    (h : afind p k = some (.vList l)) : listOf p k = l := by
  unfold listOf
  rw [h]

theorem listOf_none (p : Props) (k : String) (h : afind p k = none) :
    listOf p k = [] := by
  unfold listOf
  rw [h]

theorem listOf_congr {p q : Props} {k : String} (h : afind p k = afind q k) :
    listOf p k = listOf q k := by
  unfold listOf
  rw [h]

theorem dictOf_eq (p : Props) (d : List (String × Int))
    (h : afind p "test_run_args" = some (.vDict d)) : dictOf p = d := by
  unfold dictOf
  rw [h]

theorem dictOf_congr {p q : Props} (h : afind p "test_run_args" = afind q "test_run_args") :
    dictOf p = dictOf q := by
  unfold dictOf
  rw [h]

theorem declDictEntry_eq (p : Props) (d : List (String × Int)) (key : String)
    (h : afind p "test_run_args" = some (.vDict d)) :
    declDictEntry p key = afind d key := by
  unfold declDictEntry
  rw [h]

theorem declDictEntry_none (p : Props) (key : String)
    (h : afind p "test_run_args" = none) : declDictEntry p key = none := by
  unfold declDictEntry
  rw [h]

/-! ### The full merge step -/

theorem ppUpdate_spec (acc delta : Props) (ha : accOk acc = true)
    (hd : wfProps delta = true) :
    ∃ out, ppUpdate acc delta = some out ∧ accOk out = true ∧
      (∀ k, (afind acc k).isSome = true → (afind out k).isSome = true) ∧
      (∀ k, k = "cc_flags" ∨ k = "cc_flags_after" ∨ k = "extra_objs" →
        afind out k = some (.vList (listOf acc k ++ listOf delta k))) ∧
      (∃ d, afind out "test_run_args" = some (.vDict d) ∧ nodupKeys d = true ∧
        ∀ key, afind d key = oelse (declDictEntry delta key) (afind (dictOf acc) key)) ∧
      (∀ k, ¬(k = "cc_flags" ∨ k = "cc_flags_after" ∨ k = "extra_objs" ∨
              k = "test_run_args") →
        afind out k = oelse (afind delta k) (afind acc k)) := by
  obtain ⟨hnd, ht1, ht2, ht3, htd, hta⟩ := wfProps_parts hd
  obtain ⟨a1, ha1⟩ := accOk_cc_flags ha
  obtain ⟨a2, ha2⟩ := accOk_cc_flags_after ha
  obtain ⟨a3, ha3⟩ := accOk_extra_objs ha
  obtain ⟨ad, had, hadn⟩ := accOk_test_run_args ha
  obtain ⟨av, hav, havs⟩ := accOk_allowed_archs ha
  obtain ⟨tmp1, e1, hn1, hv1, hp1⟩ :=
    update_list_spec acc delta "cc_flags" ⟨a1, ha1⟩ ht1 hnd
  have ht2' : listTyped (afind tmp1 "cc_flags_after") = true := by
    rw [hp1 _ (by decide)]
    exact ht2
  obtain ⟨tmp2, e2, hn2, hv2, hp2⟩ :=
    update_list_spec acc tmp1 "cc_flags_after" ⟨a2, ha2⟩ ht2' hn1
  have ht3' : listTyped (afind tmp2 "extra_objs") = true := by
    rw [hp2 _ (by decide), hp1 _ (by decide)]
    exact ht3
  obtain ⟨tmp3, e3, hn3, hv3, hp3⟩ :=
    update_list_spec acc tmp2 "extra_objs" ⟨a3, ha3⟩ ht3' hn2
  have htd' : dictTyped (afind tmp3 "test_run_args") = true := by
    rw [hp3 _ (by decide), hp2 _ (by decide), hp1 _ (by decide)]
    exact htd
  obtain ⟨tmp4, e4, hn4, hv4, hp4⟩ := update_dict_spec acc tmp3 ⟨ad, had, hadn⟩ htd' hn3
  have edelta2 : afind tmp1 "cc_flags_after" = afind delta "cc_flags_after" :=
    hp1 _ (by decide)
  have edelta3 : afind tmp2 "extra_objs" = afind delta "extra_objs" := by
    rw [hp2 _ (by decide), hp1 _ (by decide)]
  have edelta4 : afind tmp3 "test_run_args" = afind delta "test_run_args" := by
    rw [hp3 _ (by decide), hp2 _ (by decide), hp1 _ (by decide)]
  have t4cc : afind tmp4 "cc_flags" =
      (if (afind delta "cc_flags").isSome
       then some (.vList (listOf acc "cc_flags" ++ listOf delta "cc_flags"))
       else none) := by
    rw [hp4 _ (by decide), hp3 _ (by decide), hp2 _ (by decide), hv1]
  have t4ca : afind tmp4 "cc_flags_after" =
      (if (afind delta "cc_flags_after").isSome
       then some (.vList (listOf acc "cc_flags_after" ++ listOf delta "cc_flags_after"))
       else none) := by
    rw [hp4 _ (by decide), hp3 _ (by decide), hv2, edelta2, listOf_congr edelta2]
  have t4eo : afind tmp4 "extra_objs" =
      (if (afind delta "extra_objs").isSome
       then some (.vList (listOf acc "extra_objs" ++ listOf delta "extra_objs"))
       else none) := by
    rw [hp4 _ (by decide), hv3, edelta3, listOf_congr edelta3]
  have t4d : afind tmp4 "test_run_args" =
      (if (afind delta "test_run_args").isSome
       then some (.vDict (aupdate (dictOf acc) (dictOf delta)))
       else none) := by
    rw [hv4, edelta4, dictOf_congr edelta4]
  have t4other : ∀ k, ¬(k = "cc_flags" ∨ k = "cc_flags_after" ∨ k = "extra_objs" ∨
      k = "test_run_args") → afind tmp4 k = afind delta k := by
    intro k hk
    rw [hp4 _ (fun h => hk (Or.inr (Or.inr (Or.inr h)))),
        hp3 _ (fun h => hk (Or.inr (Or.inr (Or.inl h)))),
        hp2 _ (fun h => hk (Or.inr (Or.inl h))),
        hp1 _ (fun h => hk (Or.inl h))]
  have occ : ∃ l, afind (aupdate acc tmp4) "cc_flags" = some (.vList l) := by
    rw [afind_aupdate _ _ _ hn4, t4cc]
    cases hds : (afind delta "cc_flags").isSome with
    | true =>
      exact ⟨listOf acc "cc_flags" ++ listOf delta "cc_flags", by simp [oelse]⟩
    | false => exact ⟨a1, by simp [oelse, ha1]⟩
  have oca : ∃ l, afind (aupdate acc tmp4) "cc_flags_after" = some (.vList l) := by
    rw [afind_aupdate _ _ _ hn4, t4ca]
    cases hds : (afind delta "cc_flags_after").isSome with
    | true =>
      exact ⟨listOf acc "cc_flags_after" ++ listOf delta "cc_flags_after",
        by simp [oelse]⟩
    | false => exact ⟨a2, by simp [oelse, ha2]⟩
  have oeo : ∃ l, afind (aupdate acc tmp4) "extra_objs" = some (.vList l) := by
    rw [afind_aupdate _ _ _ hn4, t4eo]
    cases hds : (afind delta "extra_objs").isSome with
    | true =>
      exact ⟨listOf acc "extra_objs" ++ listOf delta "extra_objs", by simp [oelse]⟩
    | false => exact ⟨a3, by simp [oelse, ha3]⟩
  have odict : ∃ d2, afind (aupdate acc tmp4) "test_run_args" = some (.vDict d2) ∧
      nodupKeys d2 = true ∧
      ∀ key, afind d2 key = oelse (declDictEntry delta key) (afind (dictOf acc) key) := by
    rw [afind_aupdate _ _ _ hn4, t4d]
    cases hds : (afind delta "test_run_args").isSome with
    | true =>
      have hsome : ∃ b, afind delta "test_run_args" = some (.vDict b) ∧
          nodupKeys b = true := by
        cases hx : afind delta "test_run_args" with
        | none => rw [hx] at hds; simp at hds
        | some w =>
          rw [hx] at htd
          cases w <;> first | exact ⟨_, rfl, htd⟩ | simp [dictTyped] at htd
      obtain ⟨b, hb, hbn⟩ := hsome
      refine ⟨aupdate (dictOf acc) (dictOf delta), by simp [oelse],
        nodupKeys_aupdate _ _ (by rw [dictOf_eq acc ad had]; exact hadn), ?_⟩
      intro key
      rw [afind_aupdate _ _ _ (by rw [dictOf_eq delta b hb]; exact hbn),
        declDictEntry_eq delta b key hb, dictOf_eq delta b hb]
    | false =>
      have hnone : afind delta "test_run_args" = none := by
        cases hx : afind delta "test_run_args" with
        | none => rfl
        | some w => rw [hx] at hds; simp at hds
      refine ⟨ad, by simp [oelse, had], hadn, ?_⟩
      intro key
      rw [declDictEntry_none delta key hnone, dictOf_eq acc ad had, oelse_none]
  have oarch : (match afind (aupdate acc tmp4) "allowed_archs" with
      | some PropValue.vNone => true
      | some (.vSet _) => true
      | some (.vStr _) => true
      | _ => false) = true := by
    rw [afind_aupdate _ _ _ hn4,
      t4other "allowed_archs" (by decide)]
    cases hx : afind delta "allowed_archs" with
    | none => rw [oelse_none, hav]; rcases havs with rfl | ⟨l, rfl⟩ | ⟨s, rfl⟩ <;> rfl
    | some w =>
      rw [hx] at hta
      cases w <;> first | rfl | simp [archTyped] at hta
  refine ⟨aupdate acc tmp4, ?_, ?_, ?_, ?_, odict, ?_⟩
  · simp only [ppUpdate, e1, e2, e3, e4]
  · obtain ⟨l1, hl1⟩ := occ
    obtain ⟨l2, hl2⟩ := oca
    obtain ⟨l3, hl3⟩ := oeo
    obtain ⟨d2, hd2, hd2n, _⟩ := odict
    simp only [accOk, Bool.and_eq_true]
    refine ⟨⟨⟨⟨?_, ?_⟩, ?_⟩, ?_⟩, ?_⟩
    · rw [hl1]
    · rw [hl2]
    · rw [hl3]
    · rw [hd2]; exact hd2n
    · exact oarch
  · intro k hk
    rw [afind_aupdate _ _ _ hn4]
    exact oelse_isSome _ _ hk
  · intro k hk
    rcases hk with rfl | rfl | rfl
    · rw [afind_aupdate _ _ _ hn4, t4cc]
      cases hds : (afind delta "cc_flags").isSome with
      | true => simp [oelse]
      | false =>
        have hnone : afind delta "cc_flags" = none := by
          cases hx : afind delta "cc_flags" with
          | none => rfl
          | some w => rw [hx] at hds; simp at hds
        simp [oelse, ha1, listOf_eq acc _ a1 ha1, listOf_none delta _ hnone]
    · rw [afind_aupdate _ _ _ hn4, t4ca]
      cases hds : (afind delta "cc_flags_after").isSome with
      | true => simp [oelse]
      | false =>
        have hnone : afind delta "cc_flags_after" = none := by
          cases hx : afind delta "cc_flags_after" with
          | none => rfl
          | some w => rw [hx] at hds; simp at hds
        simp [oelse, ha2, listOf_eq acc _ a2 ha2, listOf_none delta _ hnone]
    · rw [afind_aupdate _ _ _ hn4, t4eo]
      cases hds : (afind delta "extra_objs").isSome with
      | true => simp [oelse]
      | false =>
        have hnone : afind delta "extra_objs" = none := by
          cases hx : afind delta "extra_objs" with
          | none => rfl
          | some w => rw [hx] at hds; simp at hds
        simp [oelse, ha3, listOf_eq acc _ a3 ha3, listOf_none delta _ hnone]
  · intro k hk
    rw [afind_aupdate _ _ _ hn4, t4other k hk]

/-! ### The resolution walk -/

theorem resolve_spec (comps : List String) (t : PrefixTree) (acc : Props)
    (hw : wfTree t = true) (ha : accOk acc = true) :
    ∃ out, resolveWalk t comps acc = some out ∧ accOk out = true ∧
      (∀ k, (afind acc k).isSome = true → (afind out k).isSome = true) ∧
      (∀ k, k = "cc_flags" ∨ k = "cc_flags_after" ∨ k = "extra_objs" →
        afind out k = some (.vList (listOf acc k ++ specListDecls t comps k))) ∧
      (∃ d, afind out "test_run_args" = some (.vDict d) ∧
        ∀ key, afind d key =
          oelse (specDeepestDictEntry t comps key) (afind (dictOf acc) key)) ∧
      (∀ k, ¬(k = "cc_flags" ∨ k = "cc_flags_after" ∨ k = "extra_objs" ∨
              k = "test_run_args") →
        afind out k = oelse (specDeepestScalar t comps k) (afind acc k)) := by
  induction comps generalizing t acc with
  | nil =>
    refine ⟨acc, rfl, ha, fun _ h => h, ?_, ?_, ?_⟩
    · intro k hk
      rcases hk with rfl | rfl | rfl
      · obtain ⟨l, hl⟩ := accOk_cc_flags ha
        simp [hl, listOf_eq acc _ l hl, specListDecls]
      · obtain ⟨l, hl⟩ := accOk_cc_flags_after ha
        simp [hl, listOf_eq acc _ l hl, specListDecls]
      · obtain ⟨l, hl⟩ := accOk_extra_objs ha
        simp [hl, listOf_eq acc _ l hl, specListDecls]
    · obtain ⟨d, hd2, hdn⟩ := accOk_test_run_args ha
      refine ⟨d, hd2, ?_⟩
      intro key
      rw [specDeepestDictEntry, oelse_none, dictOf_eq acc d hd2]
    · intro k hk
      rw [specDeepestScalar, oelse_none]
  | cons c rest ih =>
    cases t with
    | node props children =>
      rw [wfTree, Bool.and_eq_true] at hw
      cases hc : afind children c with
      | none =>
        refine ⟨acc, ?_, ha, fun _ h => h, ?_, ?_, ?_⟩
        · simp only [resolveWalk, PrefixTree.children, hc]
        · intro k hk
          rcases hk with rfl | rfl | rfl
          · obtain ⟨l, hl⟩ := accOk_cc_flags ha
            simp [hl, listOf_eq acc _ l hl, specListDecls, PrefixTree.children, hc]
          · obtain ⟨l, hl⟩ := accOk_cc_flags_after ha
            simp [hl, listOf_eq acc _ l hl, specListDecls, PrefixTree.children, hc]
          · obtain ⟨l, hl⟩ := accOk_extra_objs ha
            simp [hl, listOf_eq acc _ l hl, specListDecls, PrefixTree.children, hc]
        · obtain ⟨d, hd2, hdn⟩ := accOk_test_run_args ha
          refine ⟨d, hd2, ?_⟩
          intro key
          simp only [specDeepestDictEntry, PrefixTree.children, hc]
          rw [oelse_none, dictOf_eq acc d hd2]
        · intro k hk
          simp only [specDeepestScalar, PrefixTree.children, hc]
          rw [oelse_none]
      | some child =>
        have hwc : wfTree child = true := wfChildren_afind children c child hw.2 hc
        have hwcp : wfProps (PrefixTree.props child) = true := by
          cases child with
          | node p2 c2 =>
            rw [wfTree, Bool.and_eq_true] at hwc
            exact hwc.1
        obtain ⟨acc2, he, ha2, hmono, hlist, hdict, hscal⟩ :=
          ppUpdate_spec acc (PrefixTree.props child) ha hwcp
        obtain ⟨out, hout, haout, hmono2, hlist2, hdict2, hscal2⟩ := ih child acc2 hwc ha2
        refine ⟨out, ?_, haout, fun k hk => hmono2 k (hmono k hk), ?_, ?_, ?_⟩
        · simp only [resolveWalk, PrefixTree.children, hc, he]
          exact hout
        · intro k hk
          rw [hlist2 k hk, listOf_eq acc2 _ _ (hlist k hk)]
          simp only [specListDecls, PrefixTree.children, hc]
          rw [List.append_assoc]
        · obtain ⟨d2, hd2eq, hd2prop⟩ := hdict2
          obtain ⟨dmid, hmideq, hmidn, hmidprop⟩ := hdict
          refine ⟨d2, hd2eq, ?_⟩
          intro key
          rw [hd2prop key, dictOf_eq acc2 dmid hmideq, hmidprop key]
          simp only [specDeepestDictEntry, PrefixTree.children, hc]
          rw [oelse_assoc]
        · intro k hk
          rw [hscal2 k hk, hscal k hk]
          simp only [specDeepestScalar, PrefixTree.children, hc]
          rw [oelse_assoc]

/-- The declared tree is well-formed. -/
theorem wf_tree : wfTree path_properties_tree = true := by decide

/-- The schema defaults satisfy the resolution invariant. -/
theorem accOk_default : accOk default_properties = true := by decide

/-- The walk never inspects components beyond the matched part. -/
theorem resolveWalk_matchedPart (comps : List String) (t : PrefixTree) (acc : Props) :
    resolveWalk t comps acc = resolveWalk t (matchedPart t comps) acc := by
  induction comps generalizing t acc with
  | nil => rfl
  | cons c rest ih =>
    cases t with
    | node props children =>
      cases hc : afind children c with
      | none => simp only [resolveWalk, matchedPart, PrefixTree.children, hc]
      | some child =>
        simp only [resolveWalk, matchedPart, PrefixTree.children, hc]
        cases ppUpdate acc (PrefixTree.props child) with
        | none => rfl
        | some acc2 => exact ih child acc2

/-! ### Outcomes of one merge step without typing assumptions -/

theorem update_list_out (selfp tmp tmp2 : Props) (k : String)
    (h : update_list selfp tmp k = some tmp2) :
    tmp2 = tmp ∨ ∃ l, tmp2 = aset tmp k (.vList l) := by
  unfold update_list at h
  cases hs : afind selfp k with
  | none =>
    rw [hs] at h
    exact Or.inl (Option.some.inj h).symm
  | some sv =>
    rw [hs] at h
    cases htk : afind tmp k with
    | none =>
      rw [htk] at h
      exact Or.inl (Option.some.inj h).symm
    | some tv =>
      rw [htk] at h
      cases sv <;> cases tv <;> first
        | exact Or.inr ⟨_, (Option.some.inj h).symm⟩
        | simp at h

theorem update_dict_out (selfp tmp tmp2 : Props) (k : String)
    (h : update_dict selfp tmp k = some tmp2) :
    tmp2 = tmp ∨ ∃ d, tmp2 = aset tmp k (.vDict d) := by
  unfold update_dict at h
  cases hs : afind selfp k with
  | none =>
    rw [hs] at h
    exact Or.inl (Option.some.inj h).symm
  | some sv =>
    rw [hs] at h
    cases htk : afind tmp k with
    | none =>
      rw [htk] at h
      exact Or.inl (Option.some.inj h).symm
    | some tv =>
      rw [htk] at h
      cases sv <;> cases tv <;> first
        | exact Or.inr ⟨_, (Option.some.inj h).symm⟩
        | simp at h

theorem update_list_pres (selfp tmp tmp2 : Props) (k : String)
    (h : update_list selfp tmp k = some tmp2) :
    (∀ k2, k2 ≠ k → afind tmp2 k2 = afind tmp k2) ∧
    (nodupKeys tmp = true → nodupKeys tmp2 = true) := by
  rcases update_list_out selfp tmp tmp2 k h with rfl | ⟨l, rfl⟩
  · exact ⟨fun _ _ => rfl, fun hh => hh⟩
  · exact ⟨fun k2 hk2 => afind_aset_ne _ _ _ _ hk2, fun hh => nodupKeys_aset _ _ _ hh⟩

theorem update_dict_pres (selfp tmp tmp2 : Props) (k : String)
    (h : update_dict selfp tmp k = some tmp2) :
    (∀ k2, k2 ≠ k → afind tmp2 k2 = afind tmp k2) ∧
    (nodupKeys tmp = true → nodupKeys tmp2 = true) := by
  rcases update_dict_out selfp tmp tmp2 k h with rfl | ⟨d, rfl⟩
  · exact ⟨fun _ _ => rfl, fun hh => hh⟩
  · exact ⟨fun k2 hk2 => afind_aset_ne _ _ _ _ hk2, fun hh => nodupKeys_aset _ _ _ hh⟩

/-! ### Claim theorems -/

/-- C1: for every path, each of the three list-valued properties
(`cc_flags`, `cc_flags_after`, `extra_objs`) resolves to the schema
default followed by the concatenation, in root-to-leaf order, of the
values declared at the matched nodes; matched nodes that do not declare
the property contribute nothing, and a deeper declaration never replaces
the accumulated list. -/
theorem c1_list_accumulation (comps : List String) (k : String)
    (hk : k = "cc_flags" ∨ k = "cc_flags_after" ∨ k = "extra_objs") :
    ∃ out, resolveWalk path_properties_tree comps default_properties = some out ∧
      afind out k = some (.vList
        (listOf default_properties k ++
         specListDecls path_properties_tree comps k)) := by
  obtain ⟨out, h1, _, _, h4, _, _⟩ := resolve_spec comps _ _ wf_tree accOk_default
  exact ⟨out, h1, h4 k hk⟩

theorem c1_list_accumulation_witness :
    ("cc_flags" = "cc_flags" ∨ "cc_flags" = "cc_flags_after" ∨
     "cc_flags" = "extra_objs") ∧
    (∃ out, resolveWalk path_properties_tree ["userland", "gcc", "openmp.c"]
        default_properties = some out ∧
      afind out "cc_flags" = some (.vList
        (listOf default_properties "cc_flags" ++
         specListDecls path_properties_tree ["userland", "gcc", "openmp.c"]
           "cc_flags"))) :=
  ⟨Or.inl rfl, c1_list_accumulation ["userland", "gcc", "openmp.c"] "cc_flags"
    (Or.inl rfl)⟩

/-- C2: every scalar property (every schema key other than the three
list-valued keys and `test_run_args`) resolves to the value declared at
the deepest matched node declaring it, or the schema default when no
matched node declares it. -/
theorem c2_scalar_precedence (comps : List String) (k : String)
    (hk : ¬(k = "cc_flags" ∨ k = "cc_flags_after" ∨ k = "extra_objs" ∨
            k = "test_run_args")) :
    ∃ out, resolveWalk path_properties_tree comps default_properties = some out ∧
      afind out k = oelse (specDeepestScalar path_properties_tree comps k)
        (afind default_properties k) := by
  obtain ⟨out, h1, _, _, _, _, h6⟩ := resolve_spec comps _ _ wf_tree accOk_default
  exact ⟨out, h1, h6 k hk⟩

theorem c2_scalar_precedence_witness :
    (¬("exit_status" = "cc_flags" ∨ "exit_status" = "cc_flags_after" ∨
       "exit_status" = "extra_objs" ∨ "exit_status" = "test_run_args")) ∧
    (∃ out, resolveWalk path_properties_tree ["userland", "c", "exit1.c"]
        default_properties = some out ∧
      afind out "exit_status" =
        oelse (specDeepestScalar path_properties_tree ["userland", "c", "exit1.c"]
          "exit_status") (afind default_properties "exit_status")) :=
  ⟨by decide, c2_scalar_precedence ["userland", "c", "exit1.c"] "exit_status"
    (by decide)⟩

/-- C3: for every path, the resolved `test_run_args` mapping is the
shallow merge of the matched declarations: each entry name takes the
value from the deepest matched node declaring it, and entry names
declared only at a shallower matched node (or in the default) are
preserved. -/
theorem c3_mapping_override (comps : List String) (key : String) :
    ∃ out d, resolveWalk path_properties_tree comps default_properties = some out ∧
      afind out "test_run_args" = some (.vDict d) ∧
      afind d key = oelse (specDeepestDictEntry path_properties_tree comps key)
        (afind (dictOf default_properties) key) := by
  obtain ⟨out, h1, _, _, _, hd, _⟩ := resolve_spec comps _ _ wf_tree accOk_default
  obtain ⟨d, hd1, hd2⟩ := hd
  exact ⟨out, d, h1, hd1, hd2 key⟩

/-- C4: constructing an override record succeeds exactly when every key
of the record is a schema key; a record containing any non-schema key is
rejected with an error. -/
theorem c4_unknown_key_rejection (properties : Props) :
    (ppInit properties = Except.ok properties ↔
      ∀ kv ∈ properties, (afind default_properties kv.1).isSome = true) ∧
    ((∃ kv ∈ properties, afind default_properties kv.1 = none) →
      ∃ msg, ppInit properties = Except.error msg) := by
  constructor
  · constructor
    · intro h kv hkv
      unfold ppInit at h
      cases hf : properties.find? (fun kv => !(afind default_properties kv.1).isSome) with
      | some kv2 =>
        rw [hf] at h
        exact absurd h (by simp)
      | none =>
        have h2 := List.find?_eq_none.mp hf kv hkv
        simpa [Option.isSome_iff_ne_none] using h2
    · intro h
      unfold ppInit
      cases hf : properties.find? (fun kv => !(afind default_properties kv.1).isSome) with
      | none => rfl
      | some kv2 =>
        have hpred := List.find?_some hf
        have hmem := List.mem_of_find?_eq_some hf
        exact absurd (h kv2 hmem) (by simpa using hpred)
  · rintro ⟨kv, hmem, hnone⟩
    unfold ppInit
    cases hf : properties.find? (fun kv => !(afind default_properties kv.1).isSome) with
    | none =>
      have h2 := List.find?_eq_none.mp hf kv hmem
      rw [hnone] at h2
      simp at h2
    | some kv2 => exact ⟨_, rfl⟩

/-- C5: for every property record, path and environment, a true
should_be_tested verdict implies a true should_be_built verdict with
link disabled. -/
theorem c5_test_implies_build (p : Props) (pc : List String) (env : Env)
    (h : should_be_tested p pc env = some true) :
    should_be_built p pc env false = some true := by
  unfold should_be_tested at h
  cases hb : should_be_built p pc env false with
  | none =>
    rw [hb] at h
    simp [pyAnd] at h
  | some b =>
    cases b with
    | true => rfl
    | false =>
      rw [hb] at h
      simp [pyAnd] at h

/-- The hosted-mode environment used by concrete witnesses. -/
def envHosted : Env := ⟨"x86_64", "userland", "qemu", [".c"], [".c"], [], true⟩

/-- The resolved record of `userland/c/hello.c` (an unmatched leaf under
a matched directory). -/
def helloProps : Props :=
  (resolveWalk path_properties_tree ["userland", "c", "hello.c"]
    default_properties).getD []

theorem c5_test_implies_build_witness :
    should_be_tested helloProps ["userland", "c", "hello.c"] envHosted = some true ∧
    should_be_built helloProps ["userland", "c", "hello.c"] envHosted false =
      some true :=
  ⟨by decide, c5_test_implies_build _ _ _ (by decide)⟩

/-- C6: a path whose first segment names no child of the root resolves to
exactly the schema defaults; in general resolution never fails on an
unmatched segment — the walk stops at the first unmatched component, so
only the matched leading components contribute, and a resolved record is
always produced. -/
theorem c6_default_fallback :
    (∀ c rest, afind (PrefixTree.children path_properties_tree) c = none →
      resolveWalk path_properties_tree (c :: rest) default_properties =
        some default_properties) ∧
    (∀ comps, resolveWalk path_properties_tree comps default_properties =
        resolveWalk path_properties_tree
          (matchedPart path_properties_tree comps) default_properties ∧
      ∃ out, resolveWalk path_properties_tree comps default_properties =
        some out) := by
  constructor
  · intro c rest hc
    simp only [resolveWalk, hc]
  · intro comps
    refine ⟨resolveWalk_matchedPart comps _ _, ?_⟩
    obtain ⟨out, h1, _, _, _, _, _⟩ := resolve_spec comps _ _ wf_tree accOk_default
    exact ⟨out, h1⟩

theorem c6_default_fallback_witness :
    afind (PrefixTree.children path_properties_tree) "README.md" = none ∧
    resolveWalk path_properties_tree ["README.md"] default_properties =
      some default_properties :=
  ⟨by rfl, c6_default_fallback.1 "README.md" [] (by rfl)⟩

/-- C10: in one merge step, every key other than `cc_flags`,
`cc_flags_after`, `extra_objs` and `test_run_args` that the delta record
defines replaces the base record's value wholesale; in particular a
deeper `allowed_archs` declaration completely replaces a shallower one
and is never unioned or intersected with it. -/
theorem c10_scalar_replacement (base delta out : Props) (k : String) (v : PropValue)
    (hk : ¬(k = "cc_flags" ∨ k = "cc_flags_after" ∨ k = "extra_objs" ∨
            k = "test_run_args"))
    (hn : nodupKeys delta = true)
    (hv : afind delta k = some v)
    (hout : ppUpdate base delta = some out) :
    afind out k = some v := by
  unfold ppUpdate at hout
  split at hout
  next => simp at hout
  next tmp1 e1 =>
    split at hout
    next => simp at hout
    next tmp2 e2 =>
      split at hout
      next => simp at hout
      next tmp3 e3 =>
        split at hout
        next => simp at hout
        next tmp4 e4 =>
          injection hout with hout2
          subst hout2
          obtain ⟨q1, n1⟩ := update_list_pres _ _ _ _ e1
          obtain ⟨q2, n2⟩ := update_list_pres _ _ _ _ e2
          obtain ⟨q3, n3⟩ := update_list_pres _ _ _ _ e3
          obtain ⟨q4, n4⟩ := update_dict_pres _ _ _ _ e4
          have hk4 : afind tmp4 k = some v := by
            rw [q4 k (fun h => hk (Or.inr (Or.inr (Or.inr h)))),
              q3 k (fun h => hk (Or.inr (Or.inr (Or.inl h)))),
              q2 k (fun h => hk (Or.inr (Or.inl h))),
              q1 k (fun h => hk (Or.inl h)), hv]
          rw [afind_aupdate _ _ _ (n4 (n3 (n2 (n1 hn)))), hk4, oelse]

/-- The record produced by overriding the defaults with a bare
`allowed_archs` set. -/
def c10Out : Props :=
  (ppUpdate default_properties [("allowed_archs", .vSet ["aarch64"])]).getD []

theorem c10_scalar_replacement_witness :
    (¬("allowed_archs" = "cc_flags" ∨ "allowed_archs" = "cc_flags_after" ∨
       "allowed_archs" = "extra_objs" ∨ "allowed_archs" = "test_run_args")) ∧
    nodupKeys [("allowed_archs", PropValue.vSet ["aarch64"])] = true ∧
    afind [("allowed_archs", PropValue.vSet ["aarch64"])] "allowed_archs" =
      some (PropValue.vSet ["aarch64"]) ∧
    ppUpdate default_properties [("allowed_archs", PropValue.vSet ["aarch64"])] =
      some c10Out ∧
    afind c10Out "allowed_archs" = some (PropValue.vSet ["aarch64"]) :=
  ⟨by decide, by decide, by decide, by decide,
    c10_scalar_replacement default_properties
      [("allowed_archs", PropValue.vSet ["aarch64"])] c10Out "allowed_archs"
      (PropValue.vSet ["aarch64"])
      (by decide) (by decide) (by decide) (by decide)⟩

/-! ### C8: the bare-string allowed_archs entry -/

/-- The resolved record of `kernel_modules/float.c`. -/
def floatProps : Props :=
  (resolveWalk path_properties_tree ["kernel_modules", "float.c"]
    default_properties).getD []

/-- Python substring containment agrees with contiguous-sublist occurrence. -/
theorem pySubstr_infix_iff (sub s : List Char) :
    pySubstr sub s = true ↔ sub <:+: s := by
  induction s with
  | nil => simp [pySubstr, List.isEmpty_iff]
  | cons c rest ih =>
    rw [pySubstr, Bool.or_eq_true, ih, List.isPrefixOf_iff_prefix]
    exact (List.infix_cons_iff).symm

/-- C8: `kernel_modules/float.c` resolves `allowed_archs` to the bare
string `"x86_64"`; `should_be_built` evaluates the architecture condition
with the same Python `in` operation as for set-valued entries, which on a
string is substring containment, so with an otherwise passing environment
the condition holds exactly for target-architecture identifiers occurring
as a contiguous substring of `"x86_64"` — in particular `"x86"` passes
while being distinct from the exact name, and `"arm"` fails. -/
theorem c8_substring_arch (p : Props) (arch : String)
    (h : resolveWalk path_properties_tree ["kernel_modules", "float.c"]
      default_properties = some p) :
    afind p "allowed_archs" = some (.vStr "x86_64") ∧
    (pyIn arch (.vStr "x86_64") = some true ↔ arch.data <:+: ("x86_64").data) ∧
    should_be_built p ["kernel_modules", "float.c"]
        (Env.mk arch "none" "qemu" [] [] [] true) false =
      some (pySubstr arch.data ("x86_64").data) ∧
    should_be_built p ["kernel_modules", "float.c"]
        (Env.mk "x86" "none" "qemu" [] [] [] true) false = some true ∧
    "x86" ≠ "x86_64" ∧
    should_be_built p ["kernel_modules", "float.c"]
        (Env.mk "arm" "none" "qemu" [] [] [] true) false = some false := by
  have h0 : resolveWalk path_properties_tree ["kernel_modules", "float.c"]
      default_properties = some floatProps := by decide
  have hp : p = floatProps := (Option.some.inj (h0.symm.trans h)).symm
  subst hp
  refine ⟨by decide, ?_, ?_, by decide, by decide, by decide⟩
  · constructor
    · intro hh
      have hh2 : some (pySubstr arch.data ("x86_64").data) = some true := hh
      exact (pySubstr_infix_iff _ _).mp (Option.some.inj hh2)
    · intro hh
      show some (pySubstr arch.data ("x86_64").data) = some true
      rw [(pySubstr_infix_iff _ _).mpr hh]
  · have hb : should_be_built floatProps ["kernel_modules", "float.c"]
        (Env.mk arch "none" "qemu" [] [] [] true) false =
        if pySubstr arch.data ("x86_64").data then some true else some false := rfl
    rw [hb]
    cases pySubstr arch.data ("x86_64").data <;> rfl

theorem c8_substring_arch_witness :
    (resolveWalk path_properties_tree ["kernel_modules", "float.c"]
      default_properties = some floatProps) ∧
    (afind floatProps "allowed_archs" = some (.vStr "x86_64") ∧
     (pyIn "x86" (.vStr "x86_64") = some true ↔
       ("x86").data <:+: ("x86_64").data) ∧
     should_be_built floatProps ["kernel_modules", "float.c"]
         (Env.mk "x86" "none" "qemu" [] [] [] true) false =
       some (pySubstr ("x86").data ("x86_64").data) ∧
     should_be_built floatProps ["kernel_modules", "float.c"]
         (Env.mk "x86" "none" "qemu" [] [] [] true) false = some true ∧
     "x86" ≠ "x86_64" ∧
     should_be_built floatProps ["kernel_modules", "float.c"]
         (Env.mk "arm" "none" "qemu" [] [] [] true) false = some false) :=
  ⟨by decide, c8_substring_arch floatProps "x86" (by decide)⟩

/-! ### C9: the requires_sudo scenario -/

/-- A resolved record with `requires_sudo` true and every other property
at its schema default. -/
def sudoProps : Props := aset default_properties "requires_sudo" (.vBool true)

/-- C9 is refuted as stated: with `requires_sudo` true and all else
default, a hosted (userland-mode) environment yields a false (not true)
should_be_built verdict, because the default record is not marked
userland. -/
theorem c9_counterexample :
    should_be_built sudoProps ["f.c"] envHosted false = some false := by decide

/-- C9 (amended): for the record with `requires_sudo` true and every
other property at its schema default, on the single-component path
`f.c`, should_be_tested is false for every environment; should_be_built
is true for every environment whose mode is neither `userland` nor
`baremetal` — in the two real modes the all-default record disqualifies
itself (its `userland` and `baremetal` flags are false) — independent of
architecture, emulator and package settings. -/
theorem c9_requires_sudo (env : Env) :
    (env.mode ≠ "userland" → env.mode ≠ "baremetal" →
      should_be_built sudoProps ["f.c"] env false = some true) ∧
    should_be_tested sudoProps ["f.c"] env = some false := by
  constructor
  · intro h1 h2
    simp [should_be_built, pyAnd, pyOr, pyNot, notProp, truthy, h1, h2, sudoProps,
      splitextExt, pyIn, afind, aset, default_properties, oelse]
  · by_cases hcu : env.mode = "userland"
    · simp [should_be_tested, should_be_built, pyAnd, pyOr, pyNot, notProp, truthy,
        hcu, sudoProps, splitextExt, afind, aset, default_properties]
    · by_cases hcb : env.mode = "baremetal"
      · simp [should_be_tested, should_be_built, pyAnd, pyOr, pyNot, notProp,
          truthy, hcu, hcb, sudoProps, splitextExt, afind, aset,
          default_properties]
      · simp [should_be_tested, should_be_built, pyAnd, pyOr, pyNot, notProp,
          truthy, hcu, hcb, sudoProps, splitextExt, afind, aset,
          default_properties]

theorem c9_requires_sudo_witness :
    should_be_built sudoProps ["f.c"] (Env.mk "a" "none" "q" [] [] [] false) false =
      some true ∧
    should_be_tested sudoProps ["f.c"] (Env.mk "a" "none" "q" [] [] [] false) =
      some false :=
  ⟨(c9_requires_sudo (Env.mk "a" "none" "q" [] [] [] false)).1
      (by decide) (by decide),
   (c9_requires_sudo (Env.mk "a" "none" "q" [] [] [] false)).2⟩

/-! ### C7: totality of the predicates -/

theorem isSome_exists {α : Type} (o : Option α) (h : o.isSome = true) :
    ∃ a, o = some a := by
  cases o with
  | none => simp at h
  | some a => exact ⟨a, rfl⟩

theorem map_isSome {α β : Type} (o : Option α) (f : α → β) (h : o.isSome = true) :
    (o.map f).isSome = true := by
  cases o with
  | none => simp at h
  | some a => rfl

theorem pyAnd_isSome {a : Option Bool} {f : Unit → Option Bool}
    (ha : a.isSome = true) (hf : a = some true → ((f ()).isSome = true)) :
    (pyAnd a f).isSome = true := by
  cases a with
  | none => simp at ha
  | some b =>
    cases b with
    | false => rfl
    | true => exact hf rfl

theorem pyOr_isSome {a : Option Bool} {f : Unit → Option Bool}
    (ha : a.isSome = true) (hf : a = some false → ((f ()).isSome = true)) :
    (pyOr a f).isSome = true := by
  cases a with
  | none => simp at ha
  | some b =>
    cases b with
    | true => rfl
    | false => exact hf rfl

theorem pyNot_isSome {a : Option Bool} (ha : a.isSome = true) :
    (pyNot a).isSome = true :=
  map_isSome a _ ha

theorem built_total (p : Props) (pc : List String) (env : Env) (link : Bool)
    (hacc : accOk p = true)
    (pres : ∀ k, (afind default_properties k).isSome = true →
      (afind p k).isSome = true)
    (hpc : pc ≠ [])
    (hlibs : pc.length = 2 → (pc[1]? ≠ some "libs" ∨ env.package_all = true)) :
    (should_be_built p pc env link).isSome = true := by
  have pNoBuild := pres "no_build" (by decide)
  have pUserland := pres "userland" (by decide)
  have pBaremetal := pres "baremetal" (by decide)
  have pNoExec := pres "no_executable" (by decide)
  obtain ⟨av, hav, havs⟩ := accOk_allowed_archs hacc
  unfold should_be_built
  split
  next heq =>
    have hs := List.getLast?_isSome.mpr hpc
    rw [heq] at hs
    simp at hs
  next lastv heq =>
    dsimp only
    apply pyAnd_isSome
    · apply pyNot_isSome
      apply pyAnd_isSome
      · rfl
      · intro h1
        have hlen : 1 < pc.length := of_decide_eq_true (Option.some.inj h1)
        apply pyAnd_isSome
        · exact map_isSome _ _ (by rw [List.getElem?_eq_getElem hlen]; rfl)
        · intro h2
          have hlibs1 : pc[1]? = some "libs" := by
            cases hx : pc[1]? with
            | none => rw [hx] at h2; simp at h2
            | some s =>
              rw [hx] at h2
              simp only [Option.map_some'] at h2
              have hs : s = "libs" := of_decide_eq_true (Option.some.inj h2)
              rw [hs]
          apply pyAnd_isSome
          · rfl
          · intro h3
            have hpa : env.package_all = false := by
              have h3x := Option.some.inj h3
              cases hpa2 : env.package_all with
              | false => rfl
              | true => rw [hpa2] at h3x; simp at h3x
            apply pyNot_isSome
            apply map_isSome
            have hne2 : pc.length ≠ 2 := by
              intro hl2
              rcases hlibs hl2 with hc | hc
              · exact hc hlibs1
              · rw [hpa] at hc; simp at hc
            have hlen2 : 2 < pc.length := by omega
            rw [List.getElem?_eq_getElem hlen2]
            rfl
    · intro _
      apply pyAnd_isSome
      · exact map_isSome _ _ pNoBuild
      · intro _
        apply pyAnd_isSome
        · apply pyOr_isSome
          · exact map_isSome _ _ (by rw [hav]; rfl)
          · intro h4
            rw [hav]
            rcases havs with rfl | ⟨l, rfl⟩ | ⟨s, rfl⟩
            · rw [hav] at h4
              simp at h4
            · rfl
            · rfl
        · intro _
          apply pyAnd_isSome
          · apply pyNot_isSome
            apply pyOr_isSome
            · apply pyAnd_isSome
              · rfl
              · intro _
                apply pyOr_isSome
                · exact map_isSome _ _ pUserland
                · intro _
                  rfl
            · intro _
              apply pyAnd_isSome
              · rfl
              · intro _
                apply pyOr_isSome
                · exact map_isSome _ _ pBaremetal
                · intro _
                  rfl
          · intro _
            apply pyNot_isSome
            apply pyAnd_isSome
            · rfl
            · intro _
              exact map_isSome _ _ pNoExec

theorem tested_total (p : Props) (pc : List String) (env : Env)
    (hacc : accOk p = true)
    (pres : ∀ k, (afind default_properties k).isSome = true →
      (afind p k).isSome = true)
    (hpc : pc ≠ [])
    (hlibs : pc.length = 2 → (pc[1]? ≠ some "libs" ∨ env.package_all = true)) :
    (should_be_tested p pc env).isSome = true := by
  have hb := built_total p pc env false hacc pres hpc hlibs
  have p1 := pres "arm_aarch32" (by decide)
  have p2 := pres "signal_generated_by_os" (by decide)
  have p3 := pres "disrupts_system" (by decide)
  have p4 := pres "interactive" (by decide)
  have p5 := pres "more_than_1s" (by decide)
  have p6 := pres "no_executable" (by decide)
  have p7 := pres "requires_argument" (by decide)
  have p8 := pres "requires_kernel_modules" (by decide)
  have p9 := pres "requires_sudo" (by decide)
  have p10 := pres "skip_run_unclassified" (by decide)
  have p11 := pres "qemu_x86_64_int_syscall" (by decide)
  have p12 := pres "gem5_unimplemented_instruction" (by decide)
  have p13 := pres "signal_received" (by decide)
  have p14 := pres "requires_dynamic_library" (by decide)
  have p15 := pres "requires_semihosting" (by decide)
  have p16 := pres "requires_syscall_getcpu" (by decide)
  have p17 := pres "requires_m5ops" (by decide)
  have p18 := pres "qemu_unimplemented_instruction" (by decide)
  unfold should_be_tested
  apply pyAnd_isSome hb
  intro _
  apply pyAnd_isSome
  · apply pyNot_isSome
    apply pyAnd_isSome
    · rfl
    · intro _
      apply pyOr_isSome
      · exact map_isSome _ _ p1
      · intro _
        exact map_isSome _ _ p2
  intro _
  apply pyAnd_isSome (map_isSome _ _ p3)
  intro _
  apply pyAnd_isSome (map_isSome _ _ p4)
  intro _
  apply pyAnd_isSome (map_isSome _ _ p5)
  intro _
  apply pyAnd_isSome (map_isSome _ _ p6)
  intro _
  apply pyAnd_isSome (map_isSome _ _ p7)
  intro _
  apply pyAnd_isSome (map_isSome _ _ p8)
  intro _
  apply pyAnd_isSome (map_isSome _ _ p9)
  intro _
  apply pyAnd_isSome (map_isSome _ _ p10)
  intro _
  apply pyAnd_isSome (map_isSome _ _ p11)
  intro _
  apply pyAnd_isSome
  · apply pyNot_isSome
    apply pyAnd_isSome
    · rfl
    · intro _
      apply pyOr_isSome
      · exact map_isSome _ _ p12
      · intro _
        apply pyOr_isSome
        · exact map_isSome _ _ p13
        · intro _
          apply pyOr_isSome
          · exact map_isSome _ _ p14
          · intro _
            apply pyOr_isSome
            · exact map_isSome _ _ p15
            · intro _
              exact map_isSome _ _ p16
  intro _
  apply pyNot_isSome
  apply pyAnd_isSome
  · rfl
  · intro _
    apply pyOr_isSome
    · exact map_isSome _ _ p17
    · intro _
      apply pyAnd_isSome
      · rfl
      · intro _
        exact map_isSome _ _ p18

/-- The resolved record of the directory path `userland/libs`. -/
def libsDirProps : Props :=
  (resolveWalk path_properties_tree ["userland", "libs"]
    default_properties).getD []

/-- C7 is refuted as stated: the two-component path `userland/libs`
resolves fine, every property the predicates read is present, yet with
`package_all` false `should_be_built` indexes the missing third path
component (`path_components[2]`) and raises, modeled as `none`; the
failure propagates to `should_be_tested`. -/
theorem c7_counterexample :
    resolveWalk path_properties_tree ["userland", "libs"] default_properties =
      some libsDirProps ∧
    should_be_built libsDirProps ["userland", "libs"]
      (Env.mk "x86_64" "userland" "qemu" [".c"] [".c"] [] false) false = none ∧
    should_be_tested libsDirProps ["userland", "libs"]
      (Env.mk "x86_64" "userland" "qemu" [".c"] [".c"] [] false) = none :=
  ⟨by decide, by decide, by decide⟩

/-- C7 (amended): for every resolved record produced by resolution of a
path, every property either predicate reads is present (schema defaults
fill anything never overridden), so no property lookup can fail; both
predicates return a boolean for every environment, except that
should_be_built indexes the third path component when the path has
exactly two components, the second is `libs`, and `package_all` is
false — excluding that case the predicates are total. -/
theorem c7_predicates_total (p : Props) (pc : List String) (env : Env) (link : Bool)
    (hres : resolveWalk path_properties_tree pc default_properties = some p)
    (hpc : pc ≠ [])
    (hlibs : pc.length = 2 → (pc[1]? ≠ some "libs" ∨ env.package_all = true)) :
    (∃ b, should_be_built p pc env link = some b) ∧
    (∃ b, should_be_tested p pc env = some b) := by
  obtain ⟨out, h1, haout, hmono, _, _, _⟩ := resolve_spec pc _ _ wf_tree accOk_default
  have hop : out = p := Option.some.inj (h1.symm.trans hres)
  subst hop
  exact ⟨isSome_exists _ (built_total _ _ _ _ haout hmono hpc hlibs),
    isSome_exists _ (tested_total _ _ _ haout hmono hpc hlibs)⟩

/-- The resolved record of `userland/libs/libdrm`. -/
def libdrmProps : Props :=
  (resolveWalk path_properties_tree ["userland", "libs", "libdrm"]
    default_properties).getD []

theorem c7_predicates_total_witness :
    (resolveWalk path_properties_tree ["userland", "libs", "libdrm"]
      default_properties = some libdrmProps) ∧
    (["userland", "libs", "libdrm"] : List String) ≠ [] ∧
    ((["userland", "libs", "libdrm"] : List String).length = 2 →
      ((["userland", "libs", "libdrm"] : List String)[1]? ≠ some "libs" ∨
        envHosted.package_all = true)) ∧
    ((∃ b, should_be_built libdrmProps ["userland", "libs", "libdrm"] envHosted
        false = some b) ∧
     (∃ b, should_be_tested libdrmProps ["userland", "libs", "libdrm"] envHosted =
        some b)) :=
  ⟨by decide, by decide, by decide,
    c7_predicates_total libdrmProps ["userland", "libs", "libdrm"] envHosted false
      (by decide) (by decide) (by decide)⟩

theorem c4_unknown_key_rejection_witness :
    ∃ msg, ppInit [("bogus_key", PropValue.vBool true)] = Except.error msg :=
  (c4_unknown_key_rejection [("bogus_key", PropValue.vBool true)]).2
    ⟨("bogus_key", PropValue.vBool true), by decide, by decide⟩
